import Mathlib

/-!
Shallow embedding of the `anvil-parser` sources (`entity.py`,
`empty_entities.py`, `empty_entities_chunk.py`, `region.py`, `errors.py`)
and proofs about the spec's claims.

Python conventions carried over:
* Python `//` and `%` on ints are floor division / floor modulus, embedded
  as `Int.fdiv` / `Int.fmod`.
* Python list indexing wraps negative indices from the end and raises
  `IndexError` when out of range; slices truncate silently.
* Exceptions are modelled by `Except` with an error type carrying the
  exception class and its message.
* The external libraries (the nbt tree library and the compression
  functions from `zlib` and `gzip`) are out of scope; tree nodes become an
  inductive `Tag`, and compressors are abstract byte-list functions.
-/

namespace Anvil

/-- The exceptions the embedded code can raise, with their messages. -/
inductive PyErr where
  | typeError (msg : String)
  | indexError (msg : String)
  | unboundLocalError (name : String)
  | overflowError (msg : String)
  | outOfBoundsCoordinates (msg : String)
  | emptySectionAlreadyExists (msg : String)
  | unknownCompressionSchema (msg : String)
deriving DecidableEq, Repr

/-- Python's index normalization for a list of length `len`: a negative
index counts from the end. -/
def pyWrap (len : Nat) (i : Int) : Int :=
  if i < 0 then i + len else i

/-- Python list read `l[i]`: a negative index wraps from the end;
out of range raises `IndexError`. -/
def pyGetI {α : Type} (l : List α) (i : Int) : Except PyErr α :=
  if h : 0 ≤ pyWrap l.length i ∧ pyWrap l.length i < l.length then
    .ok (l.get ⟨(pyWrap l.length i).toNat, by omega⟩)
  else
    .error (.indexError "list index out of range")

/-- Python list write `l[i] = v` (returning the new list): same index
rules as `pyGetI`. -/
def pySetI {α : Type} (l : List α) (i : Int) (v : α) : Except PyErr (List α) :=
  if 0 ≤ pyWrap l.length i ∧ pyWrap l.length i < l.length then
    .ok (l.set (pyWrap l.length i).toNat v)
  else
    .error (.indexError "list assignment index out of range")

/-- Python read `data[i]` on a bytes object with a non-negative index. -/
def pyGetNat (l : List Nat) (i : Nat) : Except PyErr Nat :=
  if h : i < l.length then .ok (l.get ⟨i, h⟩)
  else .error (.indexError "index out of range")

/-- Python slice `l[a:b]` for non-negative bounds: truncating, total. -/
def pySlice {α : Type} (l : List α) (a b : Nat) : List α :=
  (l.drop a).take (b - a)

/-- Python `int.from_bytes(l, "big")`. -/
def fromBytesBE (l : List Nat) : Nat :=
  l.foldl (fun acc x => acc * 256 + x) 0

/-- Base-256 big-endian digits of `n`, exactly `len` digits
(the value of `n.to_bytes(len, "big")` when it does not overflow). -/
def natToBE : Nat → Nat → List Nat
  | 0, _ => []
  | len + 1, n => natToBE len (n / 256) ++ [n % 256]

/-- Python `n.to_bytes(len, "big")`: raises `OverflowError` when `n`
does not fit in `len` bytes. -/
def pyToBytes (n len : Nat) : Except PyErr (List Nat) :=
  if n < 256 ^ len then .ok (natToBE len n)
  else .error (.overflowError "int too big to convert")

/-! ## The runtime values entity properties can hold

`entity.py` dispatches on the dynamic type of each property value with
`isinstance`. In Python, `bool` is a subclass of `int`, so
`isinstance(True, int)` is `True`; the `isinst*` predicates reproduce
that. `other tyName reprStr` stands for a value of any type outside
str/int/float/bool/list, carrying `str(type(value))` and `str(value)`
for the error message. -/
inductive PValue where
  | str (s : String)
  | int (n : Int)
  | bool (b : Bool)
  | float (q : Rat)
  | list (l : List PValue)
  | other (tyName : String) (reprStr : String)

/-- Python `isinstance(v, str)`. -/
def isinstStr : PValue → Bool
  | .str _ => true
  | _ => false

/-- Python `isinstance(v, int)`: true for `bool` too, since Python's
`bool` is a subclass of `int`. -/
def isinstInt : PValue → Bool
  | .int _ => true
  | .bool _ => true
  | _ => false

/-- Python `isinstance(v, float)`. -/
def isinstFloat : PValue → Bool
  | .float _ => true
  | _ => false

/-- Python `isinstance(v, bool)`. -/
def isinstBool : PValue → Bool
  | .bool _ => true
  | _ => false

/-- Python `isinstance(v, list)`. -/
def isinstList : PValue → Bool
  | .list _ => true
  | _ => false

/-- The string payload of a `str` value. -/
def strVal : PValue → String
  | .str s => s
  | _ => ""

/-- The integer a value denotes where Python coerces it to one
(`True`/`False` are `1`/`0`). -/
def intVal : PValue → Int
  | .int n => n
  | .bool b => if b then 1 else 0
  | _ => 0

/-- The float payload of a `float` value. -/
def floatVal : PValue → Rat
  | .float q => q
  | _ => 0

/-- The element list of a `list` value. -/
def listVal : PValue → List PValue
  | .list l => l
  | _ => []

/-! ## Tree nodes (the nbt library's tags, as far as this code builds them) -/

/-- The tagged tree nodes `entity.py` / `empty_entities_chunk.py`
construct. List nodes store the raw element values handed to the nbt
constructors (`TAG_String(i)` / `TAG_Float(i)` store whatever `i` is). -/
inductive Tag where
  | string (name : String) (value : String)
  | int (name : String) (value : Int)
  | float (name : String) (value : Rat)
  | byte (name : String) (value : Int)
  | listDouble (name : String) (values : List Int)
  | listString (name : String) (values : List PValue)
  | listFloat (name : String) (values : List PValue)
  | intArray (name : String) (values : List Int)
  | listCompound (name : String) (values : List Tag)
  | compound (tags : List Tag)

/-! ## entity.py: Entity and its save() dispatch -/

/-- `Entity.__init__`'s stored state: id, position, property mapping
(a Python dict, i.e. insertion-ordered key/value pairs). -/
structure PEntity where
  entity_id : String
  x : Int
  y : Int
  z : Int
  properties : List (String × PValue)

/-- `str(type(value))` for the values this embedding distinguishes:
only values of unsupported type reach the error message that uses it. -/
def tyNameOf : PValue → String
  | .other ty _ => ty
  | _ => ""

/-- `str(value)` as carried by an `other` value. -/
def reprOf : PValue → String
  | .other _ r => r
  | _ => ""

/-- One iteration of the property loop in `Entity.save` (entity.py lines
65-86). `newList` is the current binding of the loop-local variable
`new_list`, which Python does NOT scope to one iteration: when a list
value's first element is neither `str` nor `float`, the code falls
through to `new_entity.tags.append(new_list)`, appending the node built
by an EARLIER list property, or raising `UnboundLocalError` when there
was none. Returns the appended tag and the new `new_list` binding. -/
def dispatchStep (newList : Option Tag) (key : String) (v : PValue) :
    Except PyErr (Tag × Option Tag) :=
  if isinstStr v then .ok (.string key (strVal v), newList)
  else if isinstInt v then .ok (.int key (intVal v), newList)
  else if isinstFloat v then .ok (.float key (floatVal v), newList)
  else if isinstBool v then .ok (.byte key (intVal v), newList)
  else if isinstList v then
    match listVal v with
    | [] => .error (.indexError "list index out of range")
    | v0 :: rest =>
      if isinstStr v0 then
        let nl := Tag.listString key (v0 :: rest)
        .ok (nl, some nl)
      else if isinstFloat v0 then
        let nl := Tag.listFloat key (v0 :: rest)
        .ok (nl, some nl)
      else
        match newList with
        | some nl => .ok (nl, some nl)
        | none => .error (.unboundLocalError "new_list")
  else
    .error (.typeError ("Unknown type " ++ tyNameOf v ++ " for " ++ key ++ "=" ++ reprOf v))

/-- The property loop of `Entity.save`: dispatch each (key, value) pair
in order, threading the `new_list` local. -/
def entityPropsLoop : Option Tag → List (String × PValue) →
    Except PyErr (List Tag × Option Tag)
  | nl, [] => .ok ([], nl)
  | nl, (k, v) :: rest => do
    let (t, nl') ← dispatchStep nl k v
    let (ts, nl'') ← entityPropsLoop nl' rest
    .ok (t :: ts, nl'')

/-- `Entity.save` (entity.py lines 53-89): an `id` string tag, a `Pos`
list of three doubles, then one tag per property from the dispatch. -/
def entitySave (e : PEntity) : Except PyErr Tag := do
  let (propTags, _) ← entityPropsLoop none e.properties
  .ok (.compound
    ([.string "id" e.entity_id, .listDouble "Pos" [e.x, e.y, e.z]] ++ propTags))

/-! ## empty_entities_chunk.py: EmptyEntitiesChunk -/

/-- The part of an `EmptySection` the chunk code touches: its Y index.
(Sections themselves are outside the core per the spec.) -/
structure PSection where
  y : Int
deriving DecidableEq

/-- `EmptyEntitiesChunk.__init__` state (x, z, sections list of length
NSECTIONS, version 1976, entity list). -/
structure EChunk where
  x : Int
  z : Int
  sections : List (Option PSection)
  version : Int
  entities : List PEntity

/-- A fresh `EmptyEntitiesChunk(x, z)`; `nsections` is the imported
constant `NSECTIONS` (its module, constants.py, is not in the sources). -/
def EChunk.init (nsections : Nat) (x z : Int) : EChunk :=
  ⟨x, z, List.replicate nsections none, 1976, []⟩

@[simp]
theorem EChunk.init_x (n : Nat) (a b : Int) : (EChunk.init n a b).x = a := rfl

@[simp]
theorem EChunk.init_z (n : Nat) (a b : Int) : (EChunk.init n a b).z = b := rfl

/-- `EmptyEntitiesChunk.add_section` (empty_entities_chunk.py lines
38-58): raises when `replace` is false and the slot at `section.y` holds
a section (Python truthiness: `None` is falsy, a section is truthy);
otherwise stores the section at index `section.y`. Returns the
chunk after the call together with the exception, if any. -/
def add_section (c : EChunk) (s : PSection) (replace : Bool) :
    EChunk × Option PyErr :=
  match pyGetI c.sections s.y with
  | .error e => (c, some e)
  | .ok old =>
    if old.isSome && !replace then
      (c, some (.emptySectionAlreadyExists
        ("EmptySection (Y=" ++ toString s.y ++ ") already exists in this chunk")))
    else
      match pySetI c.sections s.y (some s) with
      | .error e => (c, some e)
      | .ok l => ({ c with sections := l }, none)

/-- `EmptyEntitiesChunk.add_entity` (lines 131-147): constructs an
`Entity` and appends it to the chunk's entity list; never fails. -/
def chunkAddEntity (c : EChunk) (entity_id : String) (x y z : Int)
    (props : List (String × PValue)) : EChunk :=
  { c with entities := c.entities ++ [⟨entity_id, x, y, z, props⟩] }

/-! ## empty_entities.py: the EmptyEntities region -/

/-- `EmptyEntities.__init__` state: region coordinates and the 1024-slot
chunk list. -/
structure PRegion where
  x : Int
  z : Int
  entities_chunks : List (Option EChunk)

/-- A fresh `EmptyEntities(x, z)` with its `[None] * 1024` chunk list. -/
def PRegion.init (x z : Int) : PRegion :=
  ⟨x, z, List.replicate 1024 none⟩

/-- `EmptyEntities.inside` (empty_entities.py lines 38-56). `ymin`,
`ymax` are the imported constants `YMIN`, `YMAX` (constants.py is not in
the sources, so they stay parameters). -/
def inside (ymin ymax : Int) (r : PRegion) (x y z : Int) (chunk : Bool) : Bool :=
  let factor : Int := if chunk then 32 else 512
  let rx := x.fdiv factor
  let rz := z.fdiv factor
  !(rx != r.x || rz != r.z || y < ymin || y > ymax)

/-- `EmptyEntities.get_chunk` (lines 58-76): bounds check with `y = 0`
then read of slot `z % 32 * 32 + x % 32`. -/
def get_chunk (ymin ymax : Int) (r : PRegion) (x z : Int) :
    Except PyErr (Option EChunk) :=
  if !(inside ymin ymax r x 0 z true) then
    .error (.outOfBoundsCoordinates
      ("Chunk (" ++ toString x ++ ", " ++ toString z ++ ") is not inside this region"))
  else
    pyGetI r.entities_chunks (Int.fmod z 32 * 32 + Int.fmod x 32)

/-- `EmptyEntities.add_chunk` (lines 78-96): bounds check with `y = 0`,
then unconditional overwrite of slot `z % 32 * 32 + x % 32`. Returns the
region after the call together with the exception, if any. -/
def add_chunk (ymin ymax : Int) (r : PRegion) (c : EChunk) :
    PRegion × Option PyErr :=
  if !(inside ymin ymax r c.x 0 c.z true) then
    (r, some (.outOfBoundsCoordinates
      ("Chunk (" ++ toString c.x ++ ", " ++ toString c.z ++ ") is not inside this region")))
  else
    match pySetI r.entities_chunks (Int.fmod c.z 32 * 32 + Int.fmod c.x 32) (some c) with
    | .error e => (r, some e)
    | .ok l => ({ r with entities_chunks := l }, none)

/-- `EmptyEntities.add_entity` (lines 98-132): wrap the coordinates with
`% 512`, bounds-check the wrapped values, resolve the chunk at
`(chunk_x // 16, chunk_z // 16)` (creating and installing an empty chunk
when the slot is empty), then append the entity — in Python the chunk
object in the grid is mutated in place, modelled here by writing the
updated chunk back to its slot. Returns the region after the call
together with the exception, if any. -/
def add_entity (ymin ymax : Int) (nsections : Nat) (r : PRegion)
    (entity_id : String) (x y z : Int) (props : List (String × PValue)) :
    PRegion × Option PyErr :=
  let chunk_x := Int.fmod x 512
  let chunk_z := Int.fmod z 512
  if !(inside ymin ymax r chunk_x y chunk_z false) then
    (r, some (.outOfBoundsCoordinates
      ("Entity (" ++ toString x ++ ", " ++ toString y ++ ", " ++ toString z
        ++ ") is not inside this region")))
  else
    let cx := chunk_x.fdiv 16
    let cz := chunk_z.fdiv 16
    let idx := Int.fmod cz 32 * 32 + Int.fmod cx 32
    match get_chunk ymin ymax r cx cz with
    | .error e => (r, some e)
    | .ok none =>
      let c := EChunk.init nsections cx cz
      match add_chunk ymin ymax r c with
      | (r1, some e) => (r1, some e)
      | (r1, none) =>
        match pySetI r1.entities_chunks idx (some (chunkAddEntity c entity_id x y z props)) with
        | .error e => (r1, some e)
        | .ok l => ({ r1 with entities_chunks := l }, none)
    | .ok (some c) =>
      match pySetI r.entities_chunks idx (some (chunkAddEntity c entity_id x y z props)) with
      | .error e => (r, some e)
      | .ok l => ({ r with entities_chunks := l }, none)

/-! ## empty_entities.py: save() — the region writer

The per-chunk nbt serialization plus `zlib.compress` (lines 146-157) are
external to this codec, so the writer is embedded from the point where
the compressed per-slot payloads exist: `chunks_data` is the list of
1024 optional compressed byte strings. -/

/-- The on-disk payload for one present chunk (line 167): 4-byte
big-endian `len(compressed) + 1`, the compression-id byte `2` (zlib),
then the compressed bytes. -/
def chunkPayload (c : List Nat) : Except PyErr (List Nat) := do
  let lenB ← pyToBytes (c.length + 1) 4
  .ok (lenB ++ [2] ++ c)

/-- The loop over `chunks_data` (lines 160-176): accumulates the running
`chunks_bytes` buffer (second argument) and produces, per slot, the
`(sector_offset, sector_count)` pair recorded BEFORE padding — offset
`len(chunks_bytes) // 4096`, count `math.ceil(len(to_add) / 4096)` —
then pads each payload with `4096 - (len % 4096)` zero bytes (a full
extra sector when already aligned) before appending. -/
def packChunks : List (Option (List Nat)) → List Nat →
    Except PyErr (List Nat × List (Option (Nat × Nat)))
  | [], cb => .ok (cb, [])
  | none :: rest, cb => do
    let (cb', offs) ← packChunks rest cb
    .ok (cb', none :: offs)
  | some c :: rest, cb => do
    let toAdd ← chunkPayload c
    let so := cb.length / 4096
    let sc := (toAdd.length + 4095) / 4096
    let padded := toAdd ++ List.replicate (4096 - toAdd.length % 4096) 0
    let (cb', offs) ← packChunks rest (cb ++ padded)
    .ok (cb', some (so, sc) :: offs)

/-- One 4-byte location-header entry (lines 179-188): four zero bytes
for an absent slot, else 3-byte big-endian `sector_offset + 2` followed
by the 1-byte sector count. -/
def locationEntry : Option (Nat × Nat) → Except PyErr (List Nat)
  | none => .ok [0, 0, 0, 0]
  | some (so, sc) => do
    let a ← pyToBytes (so + 2) 3
    let b ← pyToBytes sc 1
    .ok (a ++ b)

/-- The total value of `locationEntry` on entries that fit their byte
widths (used to state what the header contains). -/
def locEntryBytes : Option (Nat × Nat) → List Nat
  | none => [0, 0, 0, 0]
  | some (so, sc) => natToBE 3 (so + 2) ++ natToBE 1 sc

/-- The `locations_header` concatenation (lines 178-188). -/
def locationsHeader (offsets : List (Option (Nat × Nat))) :
    Except PyErr (List Nat) := do
  let entries ← offsets.mapM locationEntry
  .ok entries.flatten

/-- `EmptyEntities.save` (lines 159-198) from the compressed per-slot
payloads onward: location header, 4096-byte zero timestamp header, the
packed chunk sectors, then final padding of `4096 - (len % 4096)` zero
bytes (a full extra sector when the length is already aligned). -/
def regionSave (chunksData : List (Option (List Nat))) :
    Except PyErr (List Nat) := do
  let (chunksBytes, offsets) ← packChunks chunksData []
  let lh ← locationsHeader offsets
  let final := lh ++ List.replicate 4096 0 ++ chunksBytes
  .ok (final ++ List.replicate (4096 - final.length % 4096) 0)

/-! ## region.py: the read path -/

/-- The external compression functions `region.py` and
`empty_entities.py` use. `zlib`/`gzip` are library code outside this
repository; they enter the embedding as abstract byte-list functions. -/
structure CompressionImpls where
  gzipDecompress : List Nat → List Nat
  zlibDecompress : List Nat → List Nat
  zlibCompress : List Nat → List Nat

/-- `DECOMPRESSION_TABLE` (region.py lines 14-18): 1 = gzip, 2 = zlib,
3 = identity; anything else is a `KeyError` (here: `none`). -/
def DECOMPRESSION_TABLE (impl : CompressionImpls) (id : Nat) :
    Option (List Nat → List Nat) :=
  if id = 1 then some impl.gzipDecompress
  else if id = 2 then some impl.zlibDecompress
  else if id = 3 then some (fun data => data)
  else none

/-- The message built by `UnknownCompressionSchema.__init__` (errors.py
lines 25-27) when handed the integer `compression`; the custom-
compression hint is appended exactly when the argument equals 127. -/
def ucsMessageInt (compression : Nat) : String :=
  let custom_message :=
    if compression = 127 then "(Id 127 indicates custom compression)" else ""
  "Encountered unknown compression schema " ++ toString compression ++ " " ++ custom_message

/-- The message built by `UnknownCompressionSchema.__init__` when handed
a string (as `Region.chunk_data` does for id 127): the string is not
equal to the integer 127, so the hint suffix is empty. -/
def ucsMessageStr (s : String) : String :=
  "Encountered unknown compression schema " ++ s ++ " "

/-- `Region.header_offset` (region.py lines 36-48):
`4 * (chunk_x % 32 + chunk_z % 32 * 32)`. -/
def header_offset (chunk_x chunk_z : Int) : Int :=
  4 * (Int.fmod chunk_x 32 + Int.fmod chunk_z 32 * 32)

/-- `Region.chunk_location` (lines 50-67): 3-byte big-endian sector
offset and 1-byte sector count at the header offset. -/
def chunk_location (data : List Nat) (chunk_x chunk_z : Int) :
    Except PyErr (Nat × Nat) := do
  let bOff := (header_offset chunk_x chunk_z).toNat
  let off := fromBytesBE (pySlice data bOff (bOff + 3))
  let sectors ← pyGetNat data (bOff + 3)
  .ok (off, sectors)

/-- `Region.chunk_data` (lines 69-105) up to and including decompression
(the final nbt parse is external): absent chunk gives `none`; id 127 is
rejected before dispatch with the string-argument
`UnknownCompressionSchema`; an id missing from the table raises
`UnknownCompressionSchema(id)`; otherwise the selected scheme is applied
to the `length - 1` payload bytes. -/
def chunk_data (impl : CompressionImpls) (data : List Nat)
    (chunk_x chunk_z : Int) : Except PyErr (Option (List Nat)) := do
  let loc ← chunk_location data chunk_x chunk_z
  if loc = (0, 0) then
    return none
  let off := loc.1 * 4096
  let dataStart := off + 5
  let length := fromBytesBE (pySlice data off (dataStart - 1))
  let compression ← pyGetNat data (dataStart - 1)
  if compression = 127 then
    throw (.unknownCompressionSchema
      (ucsMessageStr "Cannot decode files of custom compression type 127"))
  else
    let compressedData := pySlice data dataStart (dataStart + length - 1)
    match DECOMPRESSION_TABLE impl compression with
    | none => throw (.unknownCompressionSchema (ucsMessageInt compression))
    | some f => return some (f compressedData)

/-- The dispatch step of `chunk_data` in isolation (the `try`/`except
KeyError` of lines 98-103): look the id up in `DECOMPRESSION_TABLE`,
raising `UnknownCompressionSchema(id)` when absent. -/
def dispatchDecompression (impl : CompressionImpls) (id : Nat) :
    Except PyErr (List Nat → List Nat) :=
  match DECOMPRESSION_TABLE impl id with
  | some f => .ok f
  | none => .error (.unknownCompressionSchema (ucsMessageInt id))

/-! ## Generic helper lemmas -/

@[simp]
theorem ok_bind {ε α β : Type} (a : α) (f : α → Except ε β) :
    (Except.ok a : Except ε α) >>= f = f a := rfl

@[simp]
theorem error_bind {ε α β : Type} (e : ε) (f : α → Except ε β) :
    (Except.error e : Except ε α) >>= f = .error e := rfl

@[simp]
theorem except_map_ok {ε α β : Type} (g : α → β) (a : α) :
    (Except.ok a : Except ε α).map g = .ok (g a) := rfl

@[simp]
theorem throw_eq_error {ε α : Type} (e : ε) :
    (throw e : Except ε α) = .error e := rfl

@[simp]
theorem except_pure_eq_ok {ε α : Type} (a : α) :
    (pure a : Except ε α) = .ok a := rfl

theorem pyWrap_of_nonneg (len : Nat) {i : Int} (h : 0 ≤ i) :
    pyWrap len i = i := by
  simp [pyWrap, not_lt.mpr h]

theorem pyGetI_eq {α : Type} (l : List α) (i : Int) (h0 : 0 ≤ i)
    (h1 : i < l.length) :
    pyGetI l i = .ok (l.get ⟨i.toNat, by omega⟩) := by
  simp only [pyGetI, pyWrap_of_nonneg _ h0]
  rw [dif_pos ⟨h0, h1⟩]

theorem pySetI_eq {α : Type} (l : List α) (i : Int) (v : α) (h0 : 0 ≤ i)
    (h1 : i < l.length) :
    pySetI l i v = .ok (l.set i.toNat v) := by
  simp only [pySetI, pyWrap_of_nonneg _ h0]
  rw [if_pos ⟨h0, h1⟩]

theorem pySetI_ok_length {α : Type} {l l' : List α} {i : Int} {v : α}
    (h : pySetI l i v = .ok l') : l'.length = l.length := by
  simp only [pySetI] at h
  split at h
  · cases h; simp
  · exact Except.noConfusion h

/-- `pySetI` succeeding on one list succeeds on any list of the same
length (its bounds check depends only on the index and the length). -/
theorem pySetI_ok_congr {α : Type} {l l' : List α} {i : Int} {v : α}
    (h : pySetI l i v = .ok l') (l₂ : List α) (hlen : l₂.length = l.length)
    (v₂ : α) : ∃ l₂', pySetI l₂ i v₂ = .ok l₂' := by
  simp only [pySetI, hlen] at *
  by_cases hc : 0 ≤ pyWrap l.length i ∧ pyWrap l.length i < (l.length : Int)
  · exact ⟨_, if_pos hc⟩
  · rw [if_neg hc] at h
    exact Except.noConfusion h

/-- Bounds of Python `a % b` for positive `b`. -/
theorem fmod_bounds (a : Int) {b : Int} (hb : 0 < b) :
    0 ≤ a.fmod b ∧ a.fmod b < b :=
  ⟨Int.fmod_nonneg' a hb, Int.fmod_lt_of_pos a hb⟩

/-- Python `a // b` of a value already in `[0, b)` is zero. -/
theorem fdiv_eq_zero_of_lt {a b : Int} (h0 : 0 ≤ a) (h1 : a < b) :
    a.fdiv b = 0 := by
  rw [Int.fdiv_eq_ediv _ (by omega)]
  exact Int.ediv_eq_zero_of_lt h0 h1

/-- The grid slot index `z % 32 * 32 + x % 32` always lies in
`[0, 1024)`. -/
theorem grid_idx_bounds (x z : Int) :
    0 ≤ Int.fmod z 32 * 32 + Int.fmod x 32
    ∧ Int.fmod z 32 * 32 + Int.fmod x 32 < 1024 := by
  have h1 := fmod_bounds z (b := 32) (by norm_num)
  have h2 := fmod_bounds x (b := 32) (by norm_num)
  omega

/-- `inside` unfolded to a proposition. -/
theorem inside_iff (ymin ymax : Int) (r : PRegion) (x y z : Int)
    (chunk : Bool) :
    inside ymin ymax r x y z chunk = true ↔
      (x.fdiv (if chunk then 32 else 512) = r.x
        ∧ z.fdiv (if chunk then 32 else 512) = r.z
        ∧ ymin ≤ y ∧ y ≤ ymax) := by
  simp only [inside, Bool.not_eq_true', Bool.or_eq_false_iff, bne_eq_false_iff_eq,
    decide_eq_false_iff_not, not_lt]
  constructor
  · rintro ⟨⟨⟨hx, hz⟩, hy1⟩, hy2⟩
    exact ⟨hx, hz, by omega, by omega⟩
  · rintro ⟨hx, hz, hy1, hy2⟩
    exact ⟨⟨⟨hx, hz⟩, by omega⟩, by omega⟩

/-- `packChunks` on a run of empty slots leaves the chunk-data buffer
alone and records an absent offset per slot. -/
theorem packChunks_replicate_none (n : Nat) (cb : List Nat) :
    packChunks (List.replicate n none) cb = .ok (cb, List.replicate n none) := by
  induction n generalizing cb with
  | zero => rfl
  | succ n ih => simp [List.replicate_succ, packChunks, ih]

/-- Mapping `locationEntry` over a run of absent slots gives a run of
all-zero 4-byte entries. -/
theorem mapM_locationEntry_replicate (n : Nat) :
    (List.replicate n (none : Option (Nat × Nat))).mapM locationEntry =
      .ok (List.replicate n [0, 0, 0, 0]) := by
  induction n with
  | zero => rfl
  | succ n ih => rw [List.replicate_succ, List.mapM_cons, ih]; rfl

/-- The location header of an all-absent offsets list is all zeros. -/
theorem locationsHeader_replicate_none (n : Nat) :
    locationsHeader (List.replicate n none) = .ok (List.replicate (4 * n) 0) := by
  simp only [locationsHeader, mapM_locationEntry_replicate, ok_bind]
  congr 1
  induction n with
  | zero => rfl
  | succ n ih =>
    rw [List.replicate_succ, List.flatten_cons, ih,
      show 4 * (n + 1) = 4 + 4 * n by ring, List.replicate_add]
    rfl

/-- Saving the all-empty 1024-slot region yields 12288 zero bytes: the
two 4096-byte header sectors plus the extra all-zero sector the final
padding appends when the buffer length is already a multiple of 4096. -/
theorem regionSave_replicate_none :
    regionSave (List.replicate 1024 none) = .ok (List.replicate 12288 0) := by
  simp only [regionSave, packChunks_replicate_none, ok_bind,
    locationsHeader_replicate_none]
  norm_num

/-! ## Claims -/

/-- C1: the claim says every boolean property value serializes to a Byte
node, never an Int node. The code checks `isinstance(value, int)` before
`isinstance(value, bool)`, and Python booleans are instances of `int`,
so every boolean is captured by the Int branch: the dispatch maps a
boolean to an Int node (with value 1 or 0) for any property name and any
`new_list` state, and the spec's own end-to-end example entity
(properties `Age = 0`, `Silent = False`) serializes `Silent` to
`TAG_Int(name="Silent", value=0)`. The `bool → TAG_Byte` branch in the
source is unreachable. -/
theorem C1_bool_property_serializes_to_int_node :
    (∀ (nl : Option Tag) (key : String) (b : Bool),
      dispatchStep nl key (.bool b) = .ok (.int key (if b then 1 else 0), nl))
    ∧ entitySave ⟨"minecraft:villager", 5, 70, 5,
        [("Age", .int 0), ("Silent", .bool false)]⟩ =
      .ok (.compound [.string "id" "minecraft:villager",
        .listDouble "Pos" [5, 70, 5], .int "Age" 0, .int "Silent" 0]) := by
  refine ⟨fun nl key b => ?_, rfl⟩
  cases b <;> rfl

/-- C3 counterexample: an entity property holding an empty list does not
fail with the claimed UnsupportedPropertyType/TypeError naming the key;
`value[0]` raises a bare IndexError first. -/
theorem C3_counterexample_empty_list_raises_index_error :
    dispatchStep none "Tags" (.list []) =
      .error (.indexError "list index out of range") := rfl

/-- C3 amended: only a property value of unsupported top-level type
(not str/int/float/bool/list) fails with the TypeError naming the
offending key and value. An empty list fails with an IndexError that
names neither. A list whose first element is a string (or a float)
serializes without error to a String-list (Float-list) node keeping all
elements, even heterogeneous ones. A list whose first element is of any
other type falls through to `new_list`: with no previously built list
node in the same save call it fails with an UnboundLocalError, otherwise
it appends that stale earlier node. -/
theorem C3_amended_unsupported_property_failures :
    (∀ (nl : Option Tag) (key ty rep : String),
      dispatchStep nl key (.other ty rep) =
        .error (.typeError ("Unknown type " ++ ty ++ " for " ++ key ++ "=" ++ rep)))
    ∧ (∀ (nl : Option Tag) (key : String),
      dispatchStep nl key (.list []) =
        .error (.indexError "list index out of range"))
    ∧ (∀ (nl : Option Tag) (key s : String) (rest : List PValue),
      dispatchStep nl key (.list (.str s :: rest)) =
        .ok (.listString key (.str s :: rest), some (.listString key (.str s :: rest))))
    ∧ (∀ (nl : Option Tag) (key : String) (q : Rat) (rest : List PValue),
      dispatchStep nl key (.list (.float q :: rest)) =
        .ok (.listFloat key (.float q :: rest), some (.listFloat key (.float q :: rest))))
    ∧ (∀ (key : String) (v0 : PValue) (rest : List PValue),
      isinstStr v0 = false → isinstFloat v0 = false →
      dispatchStep none key (.list (v0 :: rest)) =
        .error (.unboundLocalError "new_list")
      ∧ ∀ t : Tag, dispatchStep (some t) key (.list (v0 :: rest)) = .ok (t, some t)) := by
  refine ⟨fun nl key ty rep => rfl, fun nl key => rfl,
    fun nl key s rest => rfl, fun nl key q rest => rfl,
    fun key v0 rest h1 h2 => ⟨?_, fun t => ?_⟩⟩ <;>
  · simp only [isinstStr, isinstFloat] at h1 h2
    simp [dispatchStep, isinstStr, isinstInt, isinstFloat, isinstBool,
      isinstList, listVal, h1, h2]

/-- C3 witness: the stale-`new_list` clause evaluated at concrete
inputs (an `[1]`-style list property with and without a previously
built list node). -/
theorem C3_amended_witness :
    dispatchStep none "k" (.list [.int 3]) =
      .error (.unboundLocalError "new_list")
    ∧ dispatchStep (some (.listString "a" [.str "x"])) "k" (.list [.int 3]) =
      .ok (.listString "a" [.str "x"], some (.listString "a" [.str "x"])) := by
  have h := C3_amended_unsupported_property_failures.2.2.2.2 "k" (.int 3) [] rfl rfl
  exact ⟨h.1, h.2 (.listString "a" [.str "x"])⟩

/-- C6: looking up the write path's compression id 2 in the reader's
dispatch table selects zlib decompression, so (zlib being an inverse
pair, which is the external library's contract) read-after-write is the
identity on the compressed payload; every id outside {1, 2, 3} makes the
dispatch raise `UnknownCompressionSchema` carrying that id. -/
theorem C6_compression_roundtrip_and_unknown_schema :
    ∀ (impl : CompressionImpls),
      (∀ d, impl.zlibDecompress (impl.zlibCompress d) = d) →
      ∀ b : List Nat,
        (dispatchDecompression impl 2).map (fun f => f (impl.zlibCompress b)) =
          .ok b
        ∧ ∀ id : Nat, ¬(id = 1 ∨ id = 2 ∨ id = 3) →
            dispatchDecompression impl id =
              .error (.unknownCompressionSchema (ucsMessageInt id)) := by
  intro impl h b
  constructor
  · simp [dispatchDecompression, DECOMPRESSION_TABLE, Except.map, h b]
  · intro id hid
    push_neg at hid
    obtain ⟨h1, h2, h3⟩ := hid
    simp [dispatchDecompression, DECOMPRESSION_TABLE, h1, h2, h3]

/-- C6 witness: the round-trip and the failing dispatch at id 127,
instantiated with identity compressors and the payload [1, 2, 3]. -/
theorem C6_witness :
    (dispatchDecompression ⟨fun d => d, fun d => d, fun d => d⟩ 2).map
        (fun f => f [1, 2, 3]) = .ok [1, 2, 3]
    ∧ dispatchDecompression ⟨fun d => d, fun d => d, fun d => d⟩ 127 =
      .error (.unknownCompressionSchema (ucsMessageInt 127)) := by
  have h := C6_compression_roundtrip_and_unknown_schema
    ⟨fun d => d, fun d => d, fun d => d⟩ (fun _ => rfl) [1, 2, 3]
  exact ⟨h.1, h.2 127 (by decide)⟩

theorem natToBE_length (len n : Nat) : (natToBE len n).length = len := by
  induction len generalizing n with
  | zero => rfl
  | succ len ih => simp [natToBE, ih]

/-- A successful `locationEntry` yields the 4 bytes of `locEntryBytes`. -/
theorem locationEntry_ok {o : Option (Nat × Nat)} {e : List Nat}
    (h : locationEntry o = .ok e) : e = locEntryBytes o ∧ e.length = 4 := by
  cases o with
  | none =>
    cases h
    exact ⟨rfl, rfl⟩
  | some p =>
    obtain ⟨so, sc⟩ := p
    simp only [locationEntry, pyToBytes, locEntryBytes] at h ⊢
    by_cases h3 : so + 2 < 256 ^ 3
    · rw [if_pos h3] at h
      by_cases h1 : sc < 256 ^ 1
      · rw [if_pos h1] at h
        simp only [ok_bind] at h
        cases h
        refine ⟨rfl, ?_⟩
        simp [natToBE_length]
      · rw [if_neg h1] at h
        simp only [ok_bind, error_bind] at h
        exact Except.noConfusion h
    · rw [if_neg h3] at h
      simp only [error_bind] at h
      exact Except.noConfusion h

/-- Shape of a successful `locationsHeader`: 4 bytes per slot, and the
4-byte window at `4 * i` is exactly slot `i`'s entry. -/
theorem locationsHeader_spec :
    ∀ {offs : List (Option (Nat × Nat))} {lh : List Nat},
      locationsHeader offs = .ok lh →
      lh.length = 4 * offs.length
      ∧ ∀ i, i < offs.length →
          pySlice lh (4 * i) (4 * i + 4) = locEntryBytes (offs.getD i none) := by
  intro offs
  induction offs with
  | nil =>
    intro lh h
    cases h
    exact ⟨rfl, fun i hi => absurd hi (by simp)⟩
  | cons o rest ih =>
    intro lh h
    simp only [locationsHeader, List.mapM_cons] at h
    cases he : locationEntry o with
    | error e =>
      rw [he] at h
      simp only [error_bind] at h
      exact Except.noConfusion h
    | ok e =>
      rw [he] at h
      simp only [ok_bind] at h
      cases hes : rest.mapM locationEntry with
      | error e2 =>
        rw [hes] at h
        simp only [error_bind] at h
        exact Except.noConfusion h
      | ok es =>
        rw [hes] at h
        simp only [ok_bind] at h
        cases h
        obtain ⟨he4, helen⟩ := locationEntry_ok he
        have hrest : locationsHeader rest = .ok es.flatten := by
          simp only [locationsHeader, hes, ok_bind]
        obtain ⟨ihlen, ihent⟩ := ih hrest
        simp only [List.flatten_cons]
        constructor
        · simp only [List.length_append, helen, ihlen, List.length_cons]
          ring
        · intro i hi
          cases i with
          | zero =>
            simp only [List.getD_cons_zero, Nat.mul_zero, Nat.zero_add]
            simp only [pySlice, List.drop_zero]
            rw [List.take_append_eq_append_take]
            rw [show 4 - 0 - e.length = 0 by omega, List.take_zero,
              List.append_nil]
            rw [← helen]
            simp [← he4]
          | succ i =>
            simp only [List.getD_cons_succ]
            have hlen4 : e.length ≤ 4 * (i + 1) := by omega
            simp only [pySlice]
            rw [List.drop_append_eq_append_drop]
            rw [List.drop_eq_nil_of_le (by omega), List.nil_append]
            rw [show 4 * (i + 1) - e.length = 4 * i by omega]
            have := ihent i (by simpa using hi)
            simpa [pySlice] using this

/-- A successful `packChunks` records one offset entry per slot. -/
theorem packChunks_offs_length :
    ∀ (cd : List (Option (List Nat))) (acc cb : List Nat)
      (offs : List (Option (Nat × Nat))),
      packChunks cd acc = .ok (cb, offs) → offs.length = cd.length := by
  intro cd
  induction cd with
  | nil =>
    intro acc cb offs h
    cases h
    rfl
  | cons c rest ih =>
    intro acc cb offs h
    cases c with
    | none =>
      simp only [packChunks] at h
      cases hr : packChunks rest acc with
      | error e =>
        rw [hr] at h
        simp only [error_bind] at h
        exact Except.noConfusion h
      | ok p =>
        rw [hr] at h
        simp only [ok_bind] at h
        cases h
        have := ih acc p.1 p.2 (by rw [hr])
        simp [this]
    | some payload =>
      simp only [packChunks] at h
      cases hp : chunkPayload payload with
      | error e =>
        rw [hp] at h
        simp only [error_bind] at h
        exact Except.noConfusion h
      | ok toAdd =>
        rw [hp] at h
        simp only [ok_bind] at h
        cases hr : packChunks rest
            (acc ++ (toAdd ++ List.replicate (4096 - toAdd.length % 4096) 0)) with
        | error e =>
          rw [hr] at h
          simp only [error_bind] at h
          exact Except.noConfusion h
        | ok p =>
          rw [hr] at h
          simp only [ok_bind] at h
          cases h
          have := ih _ p.1 p.2 (by rw [hr])
          simp [this]

/-- Slicing inside the left part of an append only sees the left part. -/
theorem pySlice_append_left {α : Type} (l r : List α) (a len : Nat)
    (h : a + len ≤ l.length) :
    pySlice (l ++ r) a (a + len) = pySlice l a (a + len) := by
  simp only [pySlice]
  rw [List.drop_append_eq_append_drop]
  rw [show a - l.length = 0 by omega, List.drop_zero]
  rw [List.take_append_eq_append_take]
  rw [List.length_drop]
  rw [show a + len - a - (l.length - a) = 0 by omega, List.take_zero,
    List.append_nil]

/-- C2 counterexample: saving the region whose 1024 chunk slots are all
empty does NOT return 8192 bytes — the final padding step appends
`4096 - (8192 % 4096) = 4096` additional zero bytes, so the buffer is
12288 bytes long. -/
theorem C2_counterexample_empty_region_save_is_not_8192_bytes :
    (regionSave (List.replicate 1024 none)).map List.length ≠ .ok 8192 := by
  rw [regionSave_replicate_none]
  simp only [except_map_ok, List.length_replicate]
  intro h
  exact absurd (Except.ok.inj h) (by decide)

/-- C2 amended: saving the all-empty region returns exactly 12288 zero
bytes — the 4096-byte all-zero location header (so every one of the
1024 four-byte location entries is all-zero), the 4096-byte zero
timestamp sector, and one extra all-zero 4096-byte sector appended by
the final padding computation, which adds a full sector when the buffer
is already 4096-aligned. -/
theorem C2_amended_empty_region_saves_to_12288_zero_bytes :
    regionSave (List.replicate 1024 none) = .ok (List.replicate 12288 0) :=
  regionSave_replicate_none

/-- C5: whenever `save()` returns a buffer (for any slot population and
any chunk payloads), the buffer has positive length and its length is an
exact multiple of 4096: the final padding step appends between 1 and
4096 zero bytes, landing exactly on a sector boundary. -/
theorem C5_save_length_is_positive_multiple_of_4096 :
    ∀ (chunksData : List (Option (List Nat))) (b : List Nat),
      regionSave chunksData = .ok b →
      0 < b.length ∧ b.length % 4096 = 0 := by
  intro cd b h
  simp only [regionSave] at h
  cases hp : packChunks cd [] with
  | error e =>
    rw [hp] at h
    simp only [error_bind] at h
    exact Except.noConfusion h
  | ok p =>
    rw [hp] at h
    simp only [ok_bind] at h
    cases hl : locationsHeader p.2 with
    | error e =>
      rw [hl] at h
      simp only [error_bind] at h
      exact Except.noConfusion h
    | ok lh =>
      rw [hl] at h
      simp only [ok_bind] at h
      cases h
      simp only [List.length_append, List.length_replicate]
      omega

/-- C5 witness: the all-empty region's saved buffer (12288 bytes). -/
theorem C5_witness :
    ∃ b : List Nat, regionSave (List.replicate 1024 none) = .ok b
      ∧ 0 < b.length ∧ b.length % 4096 = 0 :=
  ⟨List.replicate 12288 0, regionSave_replicate_none,
    C5_save_length_is_positive_multiple_of_4096 _ _ regionSave_replicate_none⟩

/-- C7: for a present chunk (location ≠ (0, 0)) whose payload declares
compression id 127, `chunk_data` fails with `UnknownCompressionSchema`
whose message carries the "custom compression" hint naming 127 (via the
string `Region.chunk_data` passes to the exception); for any other id
outside {1, 2, 3}, it fails with `UnknownCompressionSchema` whose
message carries that id. -/
theorem C7_unknown_compression_failures :
    ∀ (impl : CompressionImpls) (data : List Nat) (cx cz : Int) (o s : Nat),
      chunk_location data cx cz = .ok (o, s) →
      ¬(o = 0 ∧ s = 0) →
      ∀ c : Nat, pyGetNat data (o * 4096 + 4) = .ok c →
        (c = 127 →
          chunk_data impl data cx cz = .error (.unknownCompressionSchema
            (ucsMessageStr "Cannot decode files of custom compression type 127"))
          ∧ ucsMessageStr "Cannot decode files of custom compression type 127" =
              "Encountered unknown compression schema Cannot decode files of "
                ++ "custom compression" ++ " type 127 ")
        ∧ (¬(c = 1 ∨ c = 2 ∨ c = 3) → c ≠ 127 →
          chunk_data impl data cx cz =
            .error (.unknownCompressionSchema (ucsMessageInt c))
          ∧ ucsMessageInt c =
              "Encountered unknown compression schema " ++ toString c ++ " ") := by
  intro impl data cx cz o s hloc h00 c hc
  have hidx : o * 4096 + 5 - 1 = o * 4096 + 4 := by omega
  have hne : (o, s) ≠ ((0 : Nat), (0 : Nat)) := by
    intro h
    exact h00 ⟨congrArg Prod.fst h, congrArg Prod.snd h⟩
  constructor
  · intro h127
    subst h127
    constructor
    · simp only [chunk_data, hloc, ok_bind, if_neg hne, hidx, hc]
      simp
    · rfl
  · intro hno h127
    push_neg at hno
    obtain ⟨h1, h2, h3⟩ := hno
    constructor
    · simp only [chunk_data, hloc, ok_bind, if_neg hne, hidx, hc]
      simp [h127, DECOMPRESSION_TABLE, h1, h2, h3]
    · simp [ucsMessageInt, h127, String.append_empty]

/-- A (truncated, self-overlapping) region buffer whose chunk (0, 0) has
location entry (sector offset 0, sector count 1) — present — and whose
payload bytes at offset 0 declare compression id 127. -/
def c7DataA : List Nat := [0, 0, 0, 1, 127]

/-- Same buffer shape with compression id 5. -/
def c7DataB : List Nat := [0, 0, 0, 1, 5]

/-- C7 witness: the two failure modes evaluated on concrete buffers
(id 127 and id 5), with identity compressors. -/
theorem C7_witness :
    chunk_data ⟨fun d => d, fun d => d, fun d => d⟩ c7DataA 0 0 =
      .error (.unknownCompressionSchema
        (ucsMessageStr "Cannot decode files of custom compression type 127"))
    ∧ chunk_data ⟨fun d => d, fun d => d, fun d => d⟩ c7DataB 0 0 =
      .error (.unknownCompressionSchema (ucsMessageInt 5)) := by
  have hA := (C7_unknown_compression_failures ⟨fun d => d, fun d => d, fun d => d⟩
    c7DataA 0 0 0 1 (by rfl) (by decide) 127 (by rfl)).1 rfl
  have hB := (C7_unknown_compression_failures ⟨fun d => d, fun d => d, fun d => d⟩
    c7DataB 0 0 0 1 (by rfl) (by decide) 5 (by rfl)).2 (by decide) (by decide)
  exact ⟨hA.1, hB.1⟩

/-- On the region at (0, 0) (with `YMIN ≤ 0 ≤ YMAX` and a full-size
grid), `get_chunk` at chunk coordinates in `[0, 32)` succeeds and
returns the slot at `cz * 32 + cx`. -/
theorem get_chunk_zero_ok {ymin ymax : Int} {r : PRegion}
    (hymin : ymin ≤ 0) (hymax : 0 ≤ ymax) (hrx : r.x = 0) (hrz : r.z = 0)
    (hlen : r.entities_chunks.length = 1024) (cx cz : Int)
    (hcx : 0 ≤ cx ∧ cx < 32) (hcz : 0 ≤ cz ∧ cz < 32) :
    get_chunk ymin ymax r cx cz =
      .ok (r.entities_chunks.get ⟨(cz * 32 + cx).toNat, by omega⟩) := by
  have hin : inside ymin ymax r cx 0 cz true = true := by
    rw [inside_iff]
    refine ⟨?_, ?_, hymin, hymax⟩
    · simpa [hrx] using fdiv_eq_zero_of_lt hcx.1 hcx.2
    · simpa [hrz] using fdiv_eq_zero_of_lt hcz.1 hcz.2
  have hmx : Int.fmod cx 32 = cx := Int.fmod_eq_of_lt hcx.1 hcx.2
  have hmz : Int.fmod cz 32 = cz := Int.fmod_eq_of_lt hcz.1 hcz.2
  simp only [get_chunk, hin, Bool.not_true, Bool.false_eq_true, if_false,
    hmx, hmz]
  rw [pyGetI_eq _ _ (by omega) (by omega)]

/-- C9: for a chunk whose coordinates satisfy `cx // 32 = rx` and
`cz // 32 = rz` (and provided `YMIN ≤ 0 ≤ YMAX`, which both bounds
checks evaluate at `y = 0`), `add_chunk` succeeds and a `get_chunk` at
the same coordinates returns exactly the added chunk; for coordinates
outside the region, `get_chunk` fails with `OutOfBoundsCoordinates`. -/
theorem C9_add_chunk_get_chunk_roundtrip :
    ∀ (ymin ymax : Int) (r : PRegion) (c : EChunk) (x z : Int),
      (ymin ≤ 0 → 0 ≤ ymax → r.entities_chunks.length = 1024 →
        c.x.fdiv 32 = r.x → c.z.fdiv 32 = r.z →
        (add_chunk ymin ymax r c).2 = none
        ∧ get_chunk ymin ymax (add_chunk ymin ymax r c).1 c.x c.z =
            .ok (some c))
      ∧ (¬(x.fdiv 32 = r.x ∧ z.fdiv 32 = r.z) →
        get_chunk ymin ymax r x z = .error (.outOfBoundsCoordinates
          ("Chunk (" ++ toString x ++ ", " ++ toString z
            ++ ") is not inside this region"))) := by
  intro ymin ymax r c x z
  constructor
  · intro hymin hymax hlen hx hz
    have hin : inside ymin ymax r c.x 0 c.z true = true := by
      rw [inside_iff]
      exact ⟨by simpa using hx, by simpa using hz, hymin, hymax⟩
    have hidx := grid_idx_bounds c.x c.z
    have hset := pySetI_eq r.entities_chunks
      (Int.fmod c.z 32 * 32 + Int.fmod c.x 32) (some c) hidx.1 (by omega)
    set r' : PRegion :=
      ⟨r.x, r.z,
        r.entities_chunks.set (Int.fmod c.z 32 * 32 + Int.fmod c.x 32).toNat
          (some c)⟩ with hr'
    have hchunk : add_chunk ymin ymax r c = (r', none) := by
      simp only [add_chunk, hin, Bool.not_true, Bool.false_eq_true,
        if_false, hset, hr']
    rw [hchunk]
    refine ⟨rfl, ?_⟩
    have hin' : inside ymin ymax r' c.x 0 c.z true = true := by
      rw [inside_iff]
      exact ⟨by simpa [hr'] using hx, by simpa [hr'] using hz, hymin, hymax⟩
    simp only [get_chunk, hin', Bool.not_true, Bool.false_eq_true, if_false]
    rw [pyGetI_eq _ _ hidx.1 (by simp [hr', hlen]; omega)]
    congr 1
    simp [hr']
  · intro hout
    have hin : inside ymin ymax r x 0 z true = false := by
      rw [← Bool.not_eq_true, inside_iff]
      simp only [if_true]
      tauto
    simp [get_chunk, hin]

/-- C9 witness: a concrete round trip in the region at (0, 0) with the
Minecraft bounds `YMIN = -64`, `YMAX = 320`, and a failing lookup at a
chunk of a different region. -/
theorem C9_witness :
    ((add_chunk (-64) 320 (PRegion.init 0 0) (EChunk.init 24 3 5)).2 = none
      ∧ get_chunk (-64) 320
          (add_chunk (-64) 320 (PRegion.init 0 0) (EChunk.init 24 3 5)).1 3 5 =
        .ok (some (EChunk.init 24 3 5)))
    ∧ get_chunk (-64) 320 (PRegion.init 0 0) 40 0 =
      .error (.outOfBoundsCoordinates
        ("Chunk (" ++ toString (40 : Int) ++ ", " ++ toString (0 : Int)
          ++ ") is not inside this region")) := by
  have h := C9_add_chunk_get_chunk_roundtrip (-64) 320 (PRegion.init 0 0)
    (EChunk.init 24 3 5) 40 0
  exact ⟨h.1 (by decide) (by decide)
    (by simp only [PRegion.init, List.length_replicate]) (by decide)
    (by decide), h.2 (by decide)⟩

/-- C4: `add_entity` wraps its input to `chunk_x = x % 512`,
`chunk_z = z % 512` BEFORE the bounds check, and the wrapped values
always floor-divide by 512 to 0. Hence: for a region at any coordinates
other than (0, 0), `add_entity` raises `OutOfBoundsCoordinates` for
every input; for the region at (0, 0) (with `YMIN ≤ 0 ≤ YMAX`, as in
Minecraft), the horizontal check passes for every `x`, `z` and the call
fails (with `OutOfBoundsCoordinates`) exactly when `y` violates
`YMIN ≤ y ≤ YMAX`. -/
theorem C4_add_entity_wrapped_bounds :
    ∀ (ymin ymax : Int) (nsections : Nat) (r : PRegion) (eid : String)
      (x y z : Int) (props : List (String × PValue)),
      (¬(r.x = 0 ∧ r.z = 0) →
        add_entity ymin ymax nsections r eid x y z props =
          (r, some (.outOfBoundsCoordinates
            ("Entity (" ++ toString x ++ ", " ++ toString y ++ ", "
              ++ toString z ++ ") is not inside this region"))))
      ∧ (r.x = 0 → r.z = 0 → r.entities_chunks.length = 1024 →
          ymin ≤ 0 → 0 ≤ ymax →
          (¬(ymin ≤ y ∧ y ≤ ymax) →
            add_entity ymin ymax nsections r eid x y z props =
              (r, some (.outOfBoundsCoordinates
                ("Entity (" ++ toString x ++ ", " ++ toString y ++ ", "
                  ++ toString z ++ ") is not inside this region"))))
          ∧ ((ymin ≤ y ∧ y ≤ ymax) →
            (add_entity ymin ymax nsections r eid x y z props).2 = none)) := by
  intro ymin ymax nsections r eid x y z props
  have hbx := fmod_bounds x (b := 512) (by norm_num)
  have hbz := fmod_bounds z (b := 512) (by norm_num)
  have hdx : (Int.fmod x 512).fdiv 512 = 0 :=
    fdiv_eq_zero_of_lt hbx.1 hbx.2
  have hdz : (Int.fmod z 512).fdiv 512 = 0 :=
    fdiv_eq_zero_of_lt hbz.1 hbz.2
  constructor
  · intro hr
    have hin : inside ymin ymax r (Int.fmod x 512) y (Int.fmod z 512) false
        = false := by
      rw [← Bool.not_eq_true, inside_iff]
      rintro ⟨h1, h2, -⟩
      simp only [Bool.false_eq_true, if_false] at h1 h2
      rw [hdx] at h1
      rw [hdz] at h2
      exact hr ⟨h1.symm, h2.symm⟩
    simp only [add_entity, hin, Bool.not_false, if_true]
  · intro hrx hrz hlen hymin hymax
    constructor
    · intro hy
      have hin : inside ymin ymax r (Int.fmod x 512) y (Int.fmod z 512) false
          = false := by
        rw [← Bool.not_eq_true, inside_iff]
        rintro ⟨-, -, hy1, hy2⟩
        exact hy ⟨hy1, hy2⟩
      simp only [add_entity, hin, Bool.not_false, if_true]
    · intro hy
      have hin : inside ymin ymax r (Int.fmod x 512) y (Int.fmod z 512) false
          = true := by
        rw [inside_iff]
        exact ⟨by simpa [hrx] using hdx, by simpa [hrz] using hdz, hy.1, hy.2⟩
      have hcx16 : 0 ≤ (Int.fmod x 512).fdiv 16
          ∧ (Int.fmod x 512).fdiv 16 < 32 := by
        rw [Int.fdiv_eq_ediv _ (by norm_num)]
        exact ⟨Int.ediv_nonneg hbx.1 (by norm_num),
          (Int.ediv_lt_iff_lt_mul (by norm_num)).mpr (by omega)⟩
      have hcz16 : 0 ≤ (Int.fmod z 512).fdiv 16
          ∧ (Int.fmod z 512).fdiv 16 < 32 := by
        rw [Int.fdiv_eq_ediv _ (by norm_num)]
        exact ⟨Int.ediv_nonneg hbz.1 (by norm_num),
          (Int.ediv_lt_iff_lt_mul (by norm_num)).mpr (by omega)⟩
      have hget := get_chunk_zero_ok hymin hymax hrx hrz hlen
        ((Int.fmod x 512).fdiv 16) ((Int.fmod z 512).fdiv 16) hcx16 hcz16
      have hmx : Int.fmod ((Int.fmod x 512).fdiv 16) 32
          = (Int.fmod x 512).fdiv 16 := Int.fmod_eq_of_lt hcx16.1 hcx16.2
      have hmz : Int.fmod ((Int.fmod z 512).fdiv 16) 32
          = (Int.fmod z 512).fdiv 16 := Int.fmod_eq_of_lt hcz16.1 hcz16.2
      simp only [add_entity, hin, Bool.not_true, Bool.false_eq_true, if_false,
        hget, hmx, hmz]
      cases hv : r.entities_chunks.get
          ⟨((Int.fmod z 512).fdiv 16 * 32 + (Int.fmod x 512).fdiv 16).toNat,
            by omega⟩ with
      | some c =>
        have hset1 := pySetI_eq r.entities_chunks
          ((Int.fmod z 512).fdiv 16 * 32 + (Int.fmod x 512).fdiv 16)
          (some (chunkAddEntity c eid x y z props)) (by omega) (by omega)
        simp [hset1]
      | none =>
        have hinc : inside ymin ymax r ((Int.fmod x 512).fdiv 16) 0
            ((Int.fmod z 512).fdiv 16) true = true := by
          rw [inside_iff]
          refine ⟨?_, ?_, hymin, hymax⟩
          · simpa [hrx] using fdiv_eq_zero_of_lt hcx16.1 hcx16.2
          · simpa [hrz] using fdiv_eq_zero_of_lt hcz16.1 hcz16.2
        have hset1 := pySetI_eq r.entities_chunks
          ((Int.fmod z 512).fdiv 16 * 32 + (Int.fmod x 512).fdiv 16)
          (some (EChunk.init nsections ((Int.fmod x 512).fdiv 16)
            ((Int.fmod z 512).fdiv 16))) (by omega) (by omega)
        have hset2 := pySetI_eq
          (r.entities_chunks.set
            ((Int.fmod z 512).fdiv 16 * 32 + (Int.fmod x 512).fdiv 16).toNat
            (some (EChunk.init nsections ((Int.fmod x 512).fdiv 16)
              ((Int.fmod z 512).fdiv 16))))
          ((Int.fmod z 512).fdiv 16 * 32 + (Int.fmod x 512).fdiv 16)
          (some (chunkAddEntity (EChunk.init nsections ((Int.fmod x 512).fdiv 16)
            ((Int.fmod z 512).fdiv 16)) eid x y z props))
          (by omega) (by simp only [List.length_set]; omega)
        simp [add_chunk, hinc, hmx, hmz, hset1, hset2]

/-- C4 witness: with `YMIN = -64`, `YMAX = 320`: on the region at
(1, 0) an in-bounds entity placement still fails; on the region at
(0, 0) a placement at world coordinates (600, 70, -3) — outside the
region in world space — succeeds, and one at y = 1000 fails. -/
theorem C4_witness :
    add_entity (-64) 320 24 (PRegion.init 1 0) "minecraft:pig" 600 70 (-3) []
      = (PRegion.init 1 0, some (.outOfBoundsCoordinates
          ("Entity (" ++ toString (600 : Int) ++ ", " ++ toString (70 : Int)
            ++ ", " ++ toString (-3 : Int) ++ ") is not inside this region")))
    ∧ add_entity (-64) 320 24 (PRegion.init 0 0) "minecraft:pig" 600 1000 (-3) []
      = (PRegion.init 0 0, some (.outOfBoundsCoordinates
          ("Entity (" ++ toString (600 : Int) ++ ", " ++ toString (1000 : Int)
            ++ ", " ++ toString (-3 : Int) ++ ") is not inside this region")))
    ∧ (add_entity (-64) 320 24 (PRegion.init 0 0) "minecraft:pig" 600 70 (-3) []).2
      = none := by
  refine ⟨(C4_add_entity_wrapped_bounds (-64) 320 24 (PRegion.init 1 0)
      "minecraft:pig" 600 70 (-3) []).1 (by decide),
    ((C4_add_entity_wrapped_bounds (-64) 320 24 (PRegion.init 0 0)
      "minecraft:pig" 600 1000 (-3) []).2 rfl rfl
      (by simp only [PRegion.init, List.length_replicate]) (by decide)
      (by decide)).1 (by decide),
    ((C4_add_entity_wrapped_bounds (-64) 320 24 (PRegion.init 0 0)
      "minecraft:pig" 600 70 (-3) []).2 rfl rfl
      (by simp only [PRegion.init, List.length_replicate]) (by decide)
      (by decide)).2 (by decide)⟩

/-- A failing `add_chunk` leaves the region untouched. -/
theorem add_chunk_atomic (ymin ymax : Int) (r : PRegion) (c : EChunk) :
    (add_chunk ymin ymax r c).2.isSome → (add_chunk ymin ymax r c).1 = r := by
  cases hin : inside ymin ymax r c.x 0 c.z true with
  | false => simp [add_chunk, hin]
  | true =>
    simp only [add_chunk, hin, Bool.not_true, Bool.false_eq_true, if_false]
    cases hset : pySetI r.entities_chunks
        (Int.fmod c.z 32 * 32 + Int.fmod c.x 32) (some c) with
    | error e => intro; rfl
    | ok l => simp

/-- A failing `add_section` leaves the chunk untouched. -/
theorem add_section_atomic (c : EChunk) (s : PSection) (replace : Bool) :
    (add_section c s replace).2.isSome → (add_section c s replace).1 = c := by
  simp only [add_section]
  cases hget : pyGetI c.sections s.y with
  | error e => intro; rfl
  | ok old =>
    by_cases hb : (old.isSome && !replace) = true
    · simp [hb]
    · cases hset : pySetI c.sections s.y (some s) with
      | error e => simp [hb, hset]
      | ok l => simp [hb, hset]

/-- A successful `add_chunk` is exactly a successful slot write. -/
theorem add_chunk_ok_set {ymin ymax : Int} {r : PRegion} {c : EChunk}
    (h : (add_chunk ymin ymax r c).2 = none) :
    ∃ l, pySetI r.entities_chunks
        (Int.fmod c.z 32 * 32 + Int.fmod c.x 32) (some c) = .ok l
      ∧ (add_chunk ymin ymax r c).1 = ⟨r.x, r.z, l⟩ := by
  cases hin : inside ymin ymax r c.x 0 c.z true with
  | false =>
    simp only [add_chunk, hin, Bool.not_false, if_true] at h
    exact Option.noConfusion h
  | true =>
    simp only [add_chunk, hin, Bool.not_true, Bool.false_eq_true,
      if_false] at h ⊢
    cases hset : pySetI r.entities_chunks
        (Int.fmod c.z 32 * 32 + Int.fmod c.x 32) (some c) with
    | error e => rw [hset] at h; exact Option.noConfusion h
    | ok l => exact ⟨l, rfl, rfl⟩

/-- A failing `add_entity` leaves the region untouched. -/
theorem add_entity_atomic (ymin ymax : Int) (nsections : Nat) (r : PRegion)
    (eid : String) (x y z : Int) (props : List (String × PValue)) :
    (add_entity ymin ymax nsections r eid x y z props).2.isSome →
    (add_entity ymin ymax nsections r eid x y z props).1 = r := by
  cases hin : inside ymin ymax r (Int.fmod x 512) y (Int.fmod z 512) false with
  | false => simp [add_entity, hin]
  | true =>
    simp only [add_entity, hin, Bool.not_true, Bool.false_eq_true, if_false]
    cases hget : get_chunk ymin ymax r ((Int.fmod x 512).fdiv 16)
        ((Int.fmod z 512).fdiv 16) with
    | error e => intro; rfl
    | ok v =>
      cases v with
      | some c =>
        have hgi : ∀ w, ∃ l, pySetI r.entities_chunks
            (Int.fmod ((Int.fmod z 512).fdiv 16) 32 * 32
              + Int.fmod ((Int.fmod x 512).fdiv 16) 32) w = .ok l := by
          intro w
          simp only [get_chunk] at hget
          cases hin2 : inside ymin ymax r ((Int.fmod x 512).fdiv 16) 0
              ((Int.fmod z 512).fdiv 16) true with
          | false => rw [hin2] at hget; simp at hget
          | true =>
            rw [hin2] at hget
            simp only [Bool.not_true, Bool.false_eq_true, if_false] at hget
            simp only [pyGetI, pySetI] at hget ⊢
            by_cases hc : 0 ≤ pyWrap r.entities_chunks.length
                  (Int.fmod ((Int.fmod z 512).fdiv 16) 32 * 32
                    + Int.fmod ((Int.fmod x 512).fdiv 16) 32)
                ∧ pyWrap r.entities_chunks.length
                    (Int.fmod ((Int.fmod z 512).fdiv 16) 32 * 32
                      + Int.fmod ((Int.fmod x 512).fdiv 16) 32)
                  < (r.entities_chunks.length : Int)
            · exact ⟨_, if_pos hc⟩
            · rw [dif_neg hc] at hget
              exact Except.noConfusion hget
        obtain ⟨l, hset⟩ := hgi (some (chunkAddEntity c eid x y z props))
        simp [hset]
      | none =>
        cases hac : add_chunk ymin ymax r
            (EChunk.init nsections ((Int.fmod x 512).fdiv 16)
              ((Int.fmod z 512).fdiv 16)) with
        | mk r1 eopt =>
          cases eopt with
          | some e =>
            have h1 : r1 = r := by
              have := add_chunk_atomic ymin ymax r
                (EChunk.init nsections ((Int.fmod x 512).fdiv 16)
                  ((Int.fmod z 512).fdiv 16))
              rw [hac] at this
              exact this rfl
            subst h1
            intro
            rfl
          | none =>
            have hok := @add_chunk_ok_set ymin ymax r
              (EChunk.init nsections ((Int.fmod x 512).fdiv 16)
                ((Int.fmod z 512).fdiv 16)) (by rw [hac])
            obtain ⟨l, hset1, hfst⟩ := hok
            rw [hac] at hfst
            have hr1 : r1 = ⟨r.x, r.z, l⟩ := by simpa using hfst
            have hlen1 : l.length = r.entities_chunks.length :=
              pySetI_ok_length hset1
            simp only [EChunk.init_x, EChunk.init_z] at hset1
            obtain ⟨l2, hset2⟩ := pySetI_ok_congr hset1 l hlen1
              (some (chunkAddEntity
                (EChunk.init nsections ((Int.fmod x 512).fdiv 16)
                  ((Int.fmod z 512).fdiv 16)) eid x y z props))
            subst hr1
            simp [hset2]

/-- C10: every failing mutating operation is atomic — when `add_entity`,
`add_chunk` or `add_section` reports an error, the region (its chunk
grid, hence every chunk's entity list and section array) respectively
the chunk is exactly what it was before the call. -/
theorem C10_failing_mutations_are_atomic :
    ∀ (ymin ymax : Int) (nsections : Nat) (r : PRegion) (c ch : EChunk)
      (s : PSection) (replace : Bool) (eid : String) (x y z : Int)
      (props : List (String × PValue)),
      ((add_entity ymin ymax nsections r eid x y z props).2.isSome →
        (add_entity ymin ymax nsections r eid x y z props).1 = r)
      ∧ ((add_chunk ymin ymax r c).2.isSome → (add_chunk ymin ymax r c).1 = r)
      ∧ ((add_section ch s replace).2.isSome →
        (add_section ch s replace).1 = ch) :=
  fun ymin ymax nsections r c ch s replace eid x y z props =>
    ⟨add_entity_atomic ymin ymax nsections r eid x y z props,
      add_chunk_atomic ymin ymax r c,
      add_section_atomic ch s replace⟩

/-- C10 witness: three concrete failing calls (entity out of bounds on a
non-origin region; chunk of another region; duplicate section with
`replace = False`) leave their targets unchanged. -/
theorem C10_witness :
    (add_entity (-64) 320 24 (PRegion.init 1 0) "minecraft:pig" 5 70 5 []).1
      = PRegion.init 1 0
    ∧ (add_chunk (-64) 320 (PRegion.init 0 0) (EChunk.init 24 40 0)).1
      = PRegion.init 0 0
    ∧ (add_section ⟨0, 0, [some ⟨0⟩], 1976, []⟩ ⟨0⟩ false).1
      = ⟨0, 0, [some ⟨0⟩], 1976, []⟩ := by
  have h := C10_failing_mutations_are_atomic (-64) 320 24 (PRegion.init 1 0)
    (EChunk.init 24 40 0) ⟨0, 0, [some ⟨0⟩], 1976, []⟩ ⟨0⟩ false
    "minecraft:pig" 5 70 5 []
  have h2 := C10_failing_mutations_are_atomic (-64) 320 24 (PRegion.init 0 0)
    (EChunk.init 24 40 0) ⟨0, 0, [some ⟨0⟩], 1976, []⟩ ⟨0⟩ false
    "minecraft:pig" 5 70 5 []
  exact ⟨h.1 (by decide), h2.2.1 (by decide), h2.2.2 (by decide)⟩

/-- Variant of `pySlice_append_left` for the left-nested triple append
produced by `regionSave`. -/
theorem pySlice_append_left3 {α : Type} (l x y z : List α) (a len : Nat)
    (h : a + len ≤ l.length) :
    pySlice (l ++ x ++ y ++ z) a (a + len) = pySlice l a (a + len) := by
  rw [List.append_assoc, List.append_assoc]
  exact pySlice_append_left l (x ++ (y ++ z)) a len h

/-- C8: in a saved buffer for a full 1024-slot region, the first 4096
bytes are the location header, one 4-byte entry per slot in list (i.e.
z-major, x-minor) order: the window at `4 * i` is four zero bytes for an
absent slot, and 3-byte big-endian `sector_offset + 2` followed by the
1-byte `sector_count` for a present slot, where the `(sector_offset,
sector_count)` pairs are the ones `packChunks` records before padding. -/
theorem C8_location_header_layout :
    ∀ (cd : List (Option (List Nat))) (b cb : List Nat)
      (offsets : List (Option (Nat × Nat))),
      cd.length = 1024 →
      packChunks cd [] = .ok (cb, offsets) →
      regionSave cd = .ok b →
      ∀ i : Nat, i < 1024 →
        pySlice b (4 * i) (4 * i + 4) = locEntryBytes (offsets.getD i none) := by
  intro cd b cb offsets hcd hpack hsave i hi
  simp only [regionSave, hpack, ok_bind] at hsave
  cases hlh : locationsHeader offsets with
  | error e =>
    rw [hlh] at hsave
    simp only [error_bind] at hsave
    exact Except.noConfusion hsave
  | ok lh =>
    rw [hlh] at hsave
    simp only [ok_bind] at hsave
    cases hsave
    obtain ⟨hlhlen, hent⟩ := locationsHeader_spec hlh
    have hoffs : offsets.length = 1024 := by
      rw [packChunks_offs_length cd [] cb offsets hpack, hcd]
    rw [pySlice_append_left3 lh _ _ _ (4 * i) 4 (by omega)]
    exact hent i (by omega)

/-- One step of `packChunks` on a present slot, with the recursive call
left symbolic. -/
theorem packChunks_cons_some (c : List Nat) (rest : List (Option (List Nat)))
    (cb toAdd : List Nat) (hp : chunkPayload c = .ok toAdd) :
    packChunks (some c :: rest) cb =
      (packChunks rest
          (cb ++ (toAdd ++ List.replicate (4096 - toAdd.length % 4096) 0))).bind
        (fun p => .ok (p.1,
          some (cb.length / 4096, (toAdd.length + 4095) / 4096) :: p.2)) := by
  simp only [packChunks, hp, ok_bind]
  rfl

/-- Flattening a run of `[0, 0, 0, 0]` entries gives a run of zeros. -/
theorem flatten_replicate_four (n : Nat) :
    (List.replicate n ([0, 0, 0, 0] : List Nat)).flatten =
      List.replicate (4 * n) 0 := by
  induction n with
  | zero => rfl
  | succ n ih =>
    rw [List.replicate_succ, List.flatten_cons, ih,
      show 4 * (n + 1) = 4 + 4 * n by ring, List.replicate_add]
    rfl

/-- C8 witness: a region with one chunk (compressed payload `[7]`) in
slot 0 and the rest empty; the theorem applied at slots 0 and 1 gives
the entry `(sector_offset + 2, sector_count) = (2, 1)` encoded as
`[0, 0, 2, 1]` and an all-zero entry. -/
theorem C8_witness :
    ∃ (b cb : List Nat) (offsets : List (Option (Nat × Nat))),
      packChunks (some [7] :: List.replicate 1023 none) [] = .ok (cb, offsets)
      ∧ regionSave (some [7] :: List.replicate 1023 none) = .ok b
      ∧ pySlice b (4 * 0) (4 * 0 + 4) = [0, 0, 2, 1]
      ∧ pySlice b (4 * 1) (4 * 1 + 4) = [0, 0, 0, 0] := by
  have hpay : chunkPayload [7] = .ok [0, 0, 0, 2, 2, 7] := rfl
  have hpack : packChunks (some [7] :: List.replicate 1023 none) [] =
      .ok ([0, 0, 0, 2, 2, 7] ++ List.replicate 4090 0,
        some (0, 1) :: List.replicate 1023 none) := by
    rw [packChunks_cons_some [7] _ [] _ hpay, packChunks_replicate_none]
    rfl
  have hlh : locationsHeader (some (0, 1) :: List.replicate 1023 none) =
      .ok ([0, 0, 2, 1] ++ List.replicate 4092 0) := by
    have he : locationEntry (some (0, 1)) = .ok [0, 0, 2, 1] := rfl
    simp only [locationsHeader, List.mapM_cons, mapM_locationEntry_replicate,
      he, ok_bind, except_pure_eq_ok, List.flatten_cons]
    rw [flatten_replicate_four]
  have hsave : regionSave (some [7] :: List.replicate 1023 none) =
      .ok ((([0, 0, 2, 1] ++ List.replicate 4092 0)
          ++ (List.replicate 4096 0
            ++ ([0, 0, 0, 2, 2, 7] ++ List.replicate 4090 0)))
        ++ List.replicate 4096 0) := by
    simp only [regionSave, hpack, ok_bind, hlh]
    norm_num [List.length_append, List.length_replicate]
    rw [← List.append_assoc, List.append_replicate_replicate]
  refine ⟨_, _, _, hpack, hsave, ?_, ?_⟩
  · rw [C8_location_header_layout _ _ _ _
      (by simp only [List.length_cons, List.length_replicate]) hpack hsave 0
      (by norm_num)]
    rfl
  · rw [C8_location_header_layout _ _ _ _
      (by simp only [List.length_cons, List.length_replicate]) hpack hsave 1
      (by norm_num)]
    rfl

end Anvil
